import Mathlib

/-!
Verification of the personal-assistant backend (RAG pipeline and
tool-calling conversation loop).

Shallow embedding of the Python sources:
  backend/rag/document_processor.py   (`_chunk_text`)
  backend/ai/function_registry.py     (`FunctionRegistry.execute`)
  backend/ai/task_router.py           (`TaskRouter.process`)
  backend/ai/llm_service.py           (`LLMService.embed`)
  backend/rag/embedding_service.py    (`EmbeddingService.embed`)
  backend/rag/retrieval_service.py    (`RetrievalService.search`)
  backend/tasks/document_handler.py   (`_safe_doc_id`, `ingest_document`)

Text is modelled as `List Char`; machine strings as Lean `String`.
External collaborators (the OpenAI chat and embedding endpoints, the
ChromaDB collection, the document text extractor, the filesystem) are
passed in as explicit oracle functions, mirroring the seams the source
code consumes them through.  Python's `json` module is modelled by an
executable serializer and parser over a `PyJson` value type (integers
only for numbers; floats are outside the fragment the claims touch).
-/

namespace AiAgent

/-! ## Python JSON values and `json.dumps` (stdlib, default options) -/

/-- JSON values as produced/consumed by Python's `json` module.
Numbers are modelled as integers (no claim depends on float payloads). -/
inductive PyJson where
  | jnull : PyJson
  | jbool : Bool → PyJson
  | jnum : Int → PyJson
  | jstr : String → PyJson
  | jarr : List PyJson → PyJson
  | jobj : List (String × PyJson) → PyJson
deriving Repr

/-- Lower-case hex digit, as in Python's `\uXXXX` escapes. -/
def hexDigit (n : Nat) : Char :=
  if n < 10 then Char.ofNat (48 + n) else Char.ofNat (87 + n)

/-- Four lower-case hex digits. -/
def hex4 (n : Nat) : List Char :=
  [hexDigit (n / 4096 % 16), hexDigit (n / 256 % 16), hexDigit (n / 16 % 16), hexDigit (n % 16)]

/-- `json.dumps` escaping of one character with the default
`ensure_ascii=True`: printable ASCII passes through, `"` and `\` and the
named control characters get two-character escapes, everything else
becomes `\uXXXX` (a surrogate pair above the BMP). -/
def escapeJsonChar (c : Char) : List Char :=
  if c = '"' then ['\\', '"']
  else if c = '\\' then ['\\', '\\']
  else if c = '\n' then ['\\', 'n']
  else if c = '\r' then ['\\', 'r']
  else if c = '\t' then ['\\', 't']
  else if c.toNat = 8 then ['\\', 'b']
  else if c.toNat = 12 then ['\\', 'f']
  else if 0x20 ≤ c.toNat ∧ c.toNat ≤ 0x7E then [c]
  else if c.toNat < 0x10000 then '\\' :: 'u' :: hex4 c.toNat
  else
    let v := c.toNat - 0x10000
    ('\\' :: 'u' :: hex4 (0xD800 + v / 1024)) ++ ('\\' :: 'u' :: hex4 (0xDC00 + v % 1024))

/-- Serialized JSON string literal (quotes included). -/
def dumpStringLit (s : String) : List Char :=
  '"' :: (s.toList.map escapeJsonChar).flatten ++ ['"']

/-- `", "` item separator of `json.dumps` (default settings). -/
def commaSep : List Char := [',', ' ']

mutual

/-- `json.dumps` with default options, over `PyJson`. -/
def dumpJson : PyJson → List Char
  | .jnull => ['n', 'u', 'l', 'l']
  | .jbool true => ['t', 'r', 'u', 'e']
  | .jbool false => ['f', 'a', 'l', 's', 'e']
  | .jnum n => (Int.repr n).toList
  | .jstr s => dumpStringLit s
  | .jarr l => '[' :: dumpJsonList l ++ [']']
  | .jobj l => Char.ofNat 123 :: dumpJsonObj l ++ [Char.ofNat 125]

/-- Comma-separated array elements. -/
def dumpJsonList : List PyJson → List Char
  | [] => []
  | [v] => dumpJson v
  | v :: vs => dumpJson v ++ commaSep ++ dumpJsonList vs

/-- Comma-separated `"key": value` members. -/
def dumpJsonObj : List (String × PyJson) → List Char
  | [] => []
  | [(k, v)] => dumpStringLit k ++ ':' :: ' ' :: dumpJson v
  | (k, v) :: kvs => dumpStringLit k ++ ':' :: ' ' :: dumpJson v ++ commaSep ++ dumpJsonObj kvs

end

/-- `json.dumps` returning a Lean `String`. -/
def pyJsonDumps (j : PyJson) : String := String.mk (dumpJson j)

/-! ## `json.loads` (strict mode, integers only)

A fuel-indexed recursive-descent parser.  Fuel `2 * length + 4` is always
sufficient (every recursive call consumes input or immediately returns),
and running out of fuel surfaces as `none`, i.e. as a decode error, which
is exactly how every caller in the source treats malformed input.
Float literals (`.`/`e`/`E` after the integer part) are rejected rather
than modelled. -/

/-- JSON whitespace accepted between tokens by Python's `json.loads`. -/
def jsonWs (c : Char) : Bool := c = ' ' || c = '\t' || c = '\n' || c = '\r'

/-- Skip inter-token whitespace. -/
def skipWs (s : List Char) : List Char := s.dropWhile jsonWs

/-- Hex digit value, for `\uXXXX` escapes. -/
def hexVal (c : Char) : Option Nat :=
  if '0' ≤ c ∧ c ≤ '9' then some (c.toNat - 48)
  else if 'a' ≤ c ∧ c ≤ 'f' then some (c.toNat - 87)
  else if 'A' ≤ c ∧ c ≤ 'F' then some (c.toNat - 55)
  else none

/-- Parse the body of a string literal (after the opening quote), up to
and including the closing quote.  Fuel-indexed; strict mode rejects raw
control characters. -/
def parseStringBody : Nat → List Char → Option (List Char × List Char)
  | 0, _ => none
  | _, [] => none
  | fuel + 1, c :: rest =>
    if c = '"' then some ([], rest)
    else if c = '\\' then
      match rest with
      | [] => none
      | e :: rest2 =>
        let plain (ch : Char) : Option (List Char × List Char) :=
          (parseStringBody fuel rest2).map (fun p => (ch :: p.1, p.2))
        if e = '"' then plain '"'
        else if e = '\\' then plain '\\'
        else if e = '/' then plain '/'
        else if e = 'b' then plain (Char.ofNat 8)
        else if e = 'f' then plain (Char.ofNat 12)
        else if e = 'n' then plain '\n'
        else if e = 'r' then plain '\r'
        else if e = 't' then plain '\t'
        else if e = 'u' then
          match rest2 with
          | h1 :: h2 :: h3 :: h4 :: rest3 =>
            match hexVal h1, hexVal h2, hexVal h3, hexVal h4 with
            | some a, some b, some cc, some d =>
              (parseStringBody fuel rest3).map
                (fun p => (Char.ofNat (a * 4096 + b * 256 + cc * 16 + d) :: p.1, p.2))
            | _, _, _, _ => none
          | _ => none
        else none
    else if c.toNat < 0x20 then none
    else (parseStringBody fuel rest).map (fun p => (c :: p.1, p.2))

/-- Parse an integer literal (sign and digits; leading zeros and float
syntax rejected, as in Python for the former and unmodelled for the
latter). -/
def parseIntLit (s : List Char) : Option (Int × List Char) :=
  let (neg, s1) : Bool × List Char :=
    match s with
    | '-' :: r => (true, r)
    | _ => (false, s)
  let digits := s1.takeWhile Char.isDigit
  let rest := s1.dropWhile Char.isDigit
  if digits = [] then none
  else if digits.length > 1 ∧ digits.headI = '0' then none
  else
    match rest with
    | '.' :: _ => none
    | 'e' :: _ => none
    | 'E' :: _ => none
    | _ =>
      let v : Nat := digits.foldl (fun a c => a * 10 + (c.toNat - 48)) 0
      some (if neg then -(v : Int) else (v : Int), rest)

mutual

/-- Parse one JSON value, returning it and the unconsumed input. -/
def parseVal : Nat → List Char → Option (PyJson × List Char)
  | 0, _ => none
  | fuel + 1, s =>
    match skipWs s with
    | [] => none
    | c :: rest =>
      if c = '"' then
        (parseStringBody (rest.length + 1) rest).map (fun p => (.jstr (String.mk p.1), p.2))
      else if c = '[' then
        match skipWs rest with
        | ']' :: r => some (.jarr [], r)
        | _ => (parseElems fuel rest).map (fun p => (.jarr p.1, p.2))
      else if c = Char.ofNat 123 then
        match skipWs rest with
        | r0 =>
          if r0.headI = Char.ofNat 125 ∧ r0 ≠ [] then some (.jobj [], r0.tail)
          else (parseMembers fuel rest).map (fun p => (.jobj p.1, p.2))
      else if List.isPrefixOf ['t', 'r', 'u', 'e'] (c :: rest) then
        some (.jbool true, rest.drop 3)
      else if List.isPrefixOf ['f', 'a', 'l', 's', 'e'] (c :: rest) then
        some (.jbool false, rest.drop 4)
      else if List.isPrefixOf ['n', 'u', 'l', 'l'] (c :: rest) then
        some (.jnull, rest.drop 3)
      else
        (parseIntLit (c :: rest)).map (fun p => (.jnum p.1, p.2))

/-- Parse `value (, value)*` then the closing `]`. -/
def parseElems : Nat → List Char → Option (List PyJson × List Char)
  | 0, _ => none
  | fuel + 1, s =>
    match parseVal fuel s with
    | none => none
    | some (v, r) =>
      match skipWs r with
      | ',' :: r2 =>
        (parseElems fuel r2).map (fun p => (v :: p.1, p.2))
      | ']' :: r2 => some ([v], r2)
      | _ => none

/-- Parse `"key": value (, "key": value)*` then the closing brace. -/
def parseMembers : Nat → List Char → Option (List (String × PyJson) × List Char)
  | 0, _ => none
  | fuel + 1, s =>
    match skipWs s with
    | '"' :: r =>
      match parseStringBody (r.length + 1) r with
      | none => none
      | some (k, r1) =>
        match skipWs r1 with
        | ':' :: r2 =>
          match parseVal fuel r2 with
          | none => none
          | some (v, r3) =>
            match skipWs r3 with
            | ',' :: r4 => (parseMembers fuel r4).map (fun p => ((String.mk k, v) :: p.1, p.2))
            | r5 =>
              if r5.headI = Char.ofNat 125 ∧ r5 ≠ [] then some ([(String.mk k, v)], r5.tail)
              else none
        | _ => none
    | _ => none

end

/-- `json.loads`: parse a complete JSON document, `none` on a decode
error (trailing garbage included). -/
def jsonLoads (s : String) : Option PyJson :=
  match parseVal (2 * s.length + 4) s.toList with
  | some (v, rest) => if skipWs rest = [] then some v else none
  | none => none

/-! ## `FunctionRegistry` (backend/ai/function_registry.py) -/

/-- A Python value as returned by a tool handler: a text value, `None`,
or any other JSON-serializable value. -/
inductive PyValue where
  | vstr : String → PyValue
  | vnone : PyValue
  | vother : PyJson → PyValue

/-- What one call of a registered Python handler does: either return a
value or raise an exception carrying a message (`str(e)`).  The handler
receives the parsed argument value; `**arguments` unpacking failures are
part of this abstraction since they happen inside `execute`'s `try`. -/
inductive HandlerOutcome where
  | ok : PyValue → HandlerOutcome
  | raised : String → HandlerOutcome

/-- The registry's handler table (`self._handlers` dict): name lookup.
`register` is last-write-wins, which a function update models. -/
def Registry : Type := String → Option (PyJson → HandlerOutcome)

/-- `FunctionRegistry.register`: later registration under the same name
silently replaces the earlier one. -/
def registryRegister (r : Registry) (name : String) (h : PyJson → HandlerOutcome) : Registry :=
  fun n => if n = name then some h else r n

/-- The registry with no handlers registered. -/
def registryEmpty : Registry := fun _ => none

/-- `FunctionRegistry.execute`: look up the handler; unknown names and
raising handlers produce a `json.dumps`-serialized error payload; a
string result passes through, `None` becomes the literal `"Done"`, and
any other value is `json.dumps`-serialized.  The Lean function is total:
no branch raises. -/
def execute (reg : Registry) (name : String) (arguments : PyJson) : String :=
  match reg name with
  | none => pyJsonDumps (.jobj [("error", .jstr ("Unknown tool: " ++ name))])
  | some h =>
    match h arguments with
    | .raised e => pyJsonDumps (.jobj [("error", .jstr e)])
    | .ok (.vstr s) => s
    | .ok .vnone => "Done"
    | .ok (.vother j) => pyJsonDumps j

/-! ## Chunker (`_chunk_text` in backend/rag/document_processor.py) -/

/-- Whitespace stripped by Python's `str.strip()` (the ASCII part; the
chunker's inputs never carry the exotic Unicode space classes the model
leaves out). -/
def pyIsSpaceChar (c : Char) : Bool :=
  c = ' ' || c = '\t' || c = '\n' || c = '\r' || c.toNat = 11 || c.toNat = 12

/-- Python `str.strip()`. -/
def pyStrip (s : List Char) : List Char :=
  ((s.dropWhile pyIsSpaceChar).reverse.dropWhile pyIsSpaceChar).reverse

/-- First pass of `text.replace("\r\n", "\n")`: left-to-right,
non-overlapping. -/
def replaceCRLF : List Char → List Char
  | [] => []
  | '\r' :: '\n' :: rest => '\n' :: replaceCRLF rest
  | c :: rest => c :: replaceCRLF rest

/-- `text.replace("\r\n", "\n").replace("\r", "\n")`. -/
def normalizeNewlines (s : List Char) : List Char :=
  (replaceCRLF s).map (fun c => if c = '\r' then '\n' else c)

/-- Does `pat` occur in `s` starting at index `i`? -/
def occursAt (s pat : List Char) (i : Nat) : Bool :=
  List.isPrefixOf pat (s.drop i)

/-- Python `s.rfind(pat, a, b)`: the highest index of an occurrence of
`pat` contained in the slice `s[a:b]` (so `a ≤ i` and
`i + pat.length ≤ b`), `none` for `-1`.  Modelled by its documented
semantics: the last qualifying index in `range b`. -/
def rfind (s pat : List Char) (a b : Nat) : Option Nat :=
  ((List.range b).filter
    (fun i => decide (a ≤ i) && decide (i + pat.length ≤ b) && occursAt s pat i)).getLast?

/-- The paragraph-break pattern `"\n\n"`. -/
def paraBreak : List Char := ['\n', '\n']

/-- The line-break pattern `"\n"`. -/
def lineBreak : List Char := ['\n']

/-- The sentence-break pattern `". "`. -/
def sentenceBreak : List Char := ['.', ' ']

/-- The cascade of `rfind` calls of the loop body, each over
`[start, end + 1)`: paragraph break, else line break, else sentence
break.  A later pattern is tried only when the earlier one is absent
(`break_at == -1`), exactly as in the source. -/
def breakCandidate (t : List Char) (start e : Nat) : Option Nat :=
  match rfind t paraBreak start (e + 1) with
  | some p => some p
  | none =>
    match rfind t lineBreak start (e + 1) with
    | some p => some p
    | none => rfind t sentenceBreak start (e + 1)

/-- The chunk end chosen for the window starting at `start`
(`end = start + chunk_size` adjusted to `break_at + 1` when a break was
found strictly after `start`).  Only meaningful when
`start + chunk_size < t.length`; the loop handles the tail separately. -/
def selectEnd (t : List Char) (start chunkSize : Nat) : Nat :=
  let e := start + chunkSize
  match breakCandidate t start e with
  | some p => if start < p then p + 1 else e
  | none => e

/-- The `while start < len(text)` loop of `_chunk_text`, fuel-indexed
because the source loop does not terminate on all inputs: `none` means
the fuel ran out before the loop finished. -/
def chunkLoop (t : List Char) (chunkSize overlap : Nat) : Nat → Nat → Option (List (List Char))
  | 0, _ => none
  | fuel + 1, start =>
    if start < t.length then
      if t.length ≤ start + chunkSize then
        some [pyStrip (t.drop start)]
      else
        let e := selectEnd t start chunkSize
        let c := pyStrip ((t.drop start).take (e - start))
        let start' := if overlap < e then e - overlap else e
        (chunkLoop t chunkSize overlap fuel start').map (fun rest => c :: rest)
    else some []

/-- `_chunk_text(text, chunk_size, overlap)`: empty/whitespace-only text
yields `[]`; otherwise normalize line endings, run the chunking loop,
and drop chunks that stripped to nothing.  Fuel-indexed via
`chunkLoop`. -/
def chunkText (t : List Char) (chunkSize overlap fuel : Nat) : Option (List (List Char)) :=
  if pyStrip t = [] then some []
  else
    (chunkLoop (normalizeNewlines t) chunkSize overlap fuel 0).map
      (fun l => l.filter (fun c => !c.isEmpty))

/-! ## Conversation orchestrator (`TaskRouter.process` in backend/ai/task_router.py) -/

/-- Python string falsiness in `x or ""`: the identity on strings, kept
explicit to mirror `response.get("content") or ""`. -/
def pyOrEmpty (s : String) : String := if s = "" then "" else s

/-- `tc.function.arguments or "{}"` (the client library's `arguments` is
a string; its falsy values collapse to the empty-object literal). -/
def pyOrBraces (s : String) : String := if s = "" then String.mk [Char.ofNat 123, Char.ofNat 125] else s

/-- Message roles. -/
inductive Role where
  | system | user | assistant | tool
deriving DecidableEq, Repr

/-- One part of a structured (multi-part) user message content. -/
inductive ContentPart where
  | text : String → ContentPart
  | imageUrl : String → ContentPart
deriving DecidableEq, Repr

/-- A message's `content` value: plain text, or the structured multi-part
value built when an image is supplied. -/
inductive MContent where
  | mstr : String → MContent
  | mparts : List ContentPart → MContent
deriving DecidableEq, Repr

/-- A tool call as surfaced by the language-model client:
`{id, function.name, function.arguments}` (raw JSON argument text). -/
structure ToolCallV where
  id : String
  name : String
  arguments : String
deriving DecidableEq, Repr

/-- One entry of the running message sequence. -/
structure Message where
  role : Role
  content : MContent
  toolCalls : List ToolCallV := []
  toolCallId : Option String := none
deriving DecidableEq, Repr

/-- What `LLMService.chat` hands back to the router: the assistant
content (already normalized to a string by `chat`) and the raw tool
calls (`None` and `[]` both collapse to the empty list, matching the
`if not tool_calls` test). -/
structure ModelReply where
  content : String
  toolCalls : List ToolCallV
deriving Repr

/-- The `SYSTEM_PROMPT` constant of task_router.py. -/
def systemPrompt : String :=
  "You are a helpful AI assistant. You can:\n- Add meetings to Google Calendar\n- Create new Apple notes\n- Compose new Gmail emails\n- Search the user's documents for answers\n- Answer general questions\n\nWhen the user asks you to do something that requires a tool (calendar, note, email, document search), use the appropriate function. Otherwise respond in natural language. Be concise and helpful."

/-- The user-message content: plain text without an image, otherwise a
two-part value with the image as a remote URL (when it starts with
`http`) or an inlined base64 data URL. -/
def mkUserContent (userMessage : String) (image : Option String) : MContent :=
  match image with
  | none => .mstr userMessage
  | some u =>
    .mparts [.text userMessage,
      .imageUrl (if u.startsWith "http" then u else "data:image/jpeg;base64," ++ u)]

/-- `json.loads(tc.function.arguments or "{}")` with
`except json.JSONDecodeError: args = {}`. -/
def loadToolArgs (raw : String) : PyJson :=
  (jsonLoads (pyOrBraces raw)).getD (.jobj [])

/-- The assistant-message re-expression of one raw tool call
(`arguments or "{}"` applied). -/
def reexpressToolCall (tc : ToolCallV) : ToolCallV :=
  { id := tc.id, name := tc.name, arguments := pyOrBraces tc.arguments }

/-- The tool-result message appended for one tool call, tagged with the
originating call's id. -/
def toolResultMsg (reg : Registry) (tc : ToolCallV) : Message :=
  { role := .tool,
    content := .mstr (execute reg tc.name (loadToolArgs tc.arguments)),
    toolCalls := [],
    toolCallId := some tc.id }

/-- `current[-1].get("content", "") if current else ""`: every message
carries a `content` key, so this is the last message's content (or the
empty string for an empty sequence, which never happens in `process`). -/
def lastContent (l : List Message) : MContent :=
  match l.getLast? with
  | some m => m.content
  | none => .mstr ""

/-- The observable outcome of one `process` invocation: the returned
value, the final message sequence, and how many times the language
model was invoked. -/
structure RouterOut where
  result : MContent
  messages : List Message
  llmCalls : Nat
deriving Repr

/-- The `for _ in range(max_rounds)` loop of `TaskRouter.process`,
parameterized by the language-model oracle `llm` (one reply per message
sequence sent) and the registry.  Each round appends the assistant
reply (tool calls re-expressed verbatim); a reply without tool calls
returns its content; otherwise one tool-result message per call is
appended in emission order and the loop continues.  When the rounds are
exhausted the last message's content is returned. -/
def processRounds (llm : List Message → ModelReply) (reg : Registry) :
    Nat → List Message → RouterOut
  | 0, current => { result := lastContent current, messages := current, llmCalls := 0 }
  | n + 1, current =>
    let reply := llm current
    let assistantContent := pyOrEmpty reply.content
    let asst : Message :=
      { role := .assistant,
        content := .mstr assistantContent,
        toolCalls := reply.toolCalls.map reexpressToolCall,
        toolCallId := none }
    let cur1 := current ++ [asst]
    if reply.toolCalls.isEmpty then
      { result := .mstr assistantContent, messages := cur1, llmCalls := 1 }
    else
      let cur2 := cur1 ++ reply.toolCalls.map (toolResultMsg reg)
      let out := processRounds llm reg n cur2
      { out with llmCalls := out.llmCalls + 1 }

/-- `TaskRouter.process(user_message, history, image_url_or_base64)`:
system prompt, history verbatim, the new user message, then up to
`max_rounds = 5` rounds. -/
def process (llm : List Message → ModelReply) (reg : Registry)
    (userMessage : String) (history : List Message) (image : Option String) : RouterOut :=
  let initial : List Message :=
    { role := .system, content := .mstr systemPrompt } ::
      history ++ [{ role := .user, content := mkUserContent userMessage image }]
  processRounds llm reg 5 initial

/-! ## Embedding gateway (`LLMService.embed`, `EmbeddingService.embed`) -/

/-- A Python exception value: its type name and its message (`str(e)`). -/
inductive PyExc where
  | exc : String → String → PyExc
deriving DecidableEq, Repr

/-- `str(e)` for a modelled exception. -/
def excStr : PyExc → String
  | .exc _ msg => msg

/-- One item of the OpenAI embeddings response `r.data`. -/
structure EmbedItem (α : Type) where
  embedding : α
deriving Repr

/-- `LLMService.embed(texts)` with the upstream
`client.embeddings.create` call as an oracle.  Returns the result
together with the number of upstream calls issued.  Empty input
short-circuits; the list comprehension keeps `r.data` order; the
`except` clause logs and re-raises the upstream exception unchanged. -/
def llmEmbed {α : Type} (create : List String → Except PyExc (List (EmbedItem α)))
    (texts : List String) : Except PyExc (List α) × Nat :=
  if texts = [] then (.ok [], 0)
  else
    match create texts with
    | .ok r => (.ok (r.map (fun item => item.embedding)), 1)
    | .error e => (.error e, 1)

/-- `EmbeddingService.embed` delegates to `LLMService.embed`. -/
def embeddingServiceEmbed {α : Type} (create : List String → Except PyExc (List (EmbedItem α)))
    (texts : List String) : Except PyExc (List α) × Nat :=
  llmEmbed create texts

/-! ## Retriever (`RetrievalService.search` in backend/rag/retrieval_service.py) -/

/-- An embedding vector (numeric payload irrelevant to the claims). -/
abbrev Vec : Type := List Int

/-- Chunk metadata as stored in the index (a small string-keyed dict). -/
abbrev MetaDict : Type := List (String × PyJson)

/-- The ChromaDB `collection.query` return shape: one inner list per
query embedding; metadata entries may be `None`. -/
structure QueryReturn where
  ids : List (List String)
  documents : List (List String)
  metadatas : List (List (Option MetaDict))
deriving Repr

/-- One element of `RetrievalService.search`'s result:
`{"id": ..., "content": ..., "metadata": ...}`. -/
structure Hit where
  id : String
  content : String
  metadata : MetaDict
deriving Repr

/-- `RetrievalService.search(query, top_k)`.  `count`, `embed` and
`query` are the vector-store / embedding-gateway collaborators.  The
second component counts embedding-gateway invocations.  A zero count
short-circuits to the empty list before any embedding call; otherwise
the query text is embedded (an embedding failure propagates) and the
store's ranked lists are zipped into hits, with the source's
`or`-defaults for missing metadata/id lists and `meta or {}` per hit. -/
def retrievalSearch (count : Nat)
    (embed : List String → Except PyExc (List Vec))
    (query : List Vec → Nat → QueryReturn)
    (q : String) (topK : Nat) : Except PyExc (List Hit) × Nat :=
  if count = 0 then (.ok [], 0)
  else
    match embed [q] with
    | .error e => (.error e, 1)
    | .ok embeddings =>
      let r := query embeddings topK
      let docs := r.documents.headI
      let metas := r.metadatas.headI
      let ids := r.ids.headI
      let metas' := if metas.isEmpty then List.replicate docs.length (some []) else metas
      let ids' := if ids.isEmpty then List.replicate docs.length "" else ids
      let out := ((docs.zip metas').zip ids').map
        (fun p => { id := p.2, content := p.1.1, metadata := p.1.2.getD [] })
      (.ok out, 1)

/-! ## Document ingestion (`_safe_doc_id`, `ingest_document` in
backend/tasks/document_handler.py) -/

/-- Python `re`'s `\w` (Unicode word character) test.  Exact for ASCII
(`[a-zA-Z0-9_]`) and Latin-1; code points above U+00FF are approximated
as word characters (true for letters, not for symbols such as U+2014).
Every theorem below is insensitive to the non-ASCII part of this table:
a non-ASCII character ends up as `'_'` (replaced by `re.sub`) or `'?'`
(ASCII-replaced) either way. -/
def pyIsWordChar (c : Char) : Bool :=
  if c.toNat < 128 then c.isAlphanum || c = '_'
  else if c.toNat ≤ 0xFF then
    (0xC0 ≤ c.toNat && c.toNat ≠ 0xD7 && c.toNat ≠ 0xF7)
      || c.toNat = 0xAA || c.toNat = 0xB5 || c.toNat = 0xBA
  else true

/-- `Path(name).name`: the component after the last `/`, trailing
slashes ignored (special `.`/`..` components are outside the filename
inputs this models). -/
def pathNameOf (s : List Char) : List Char :=
  let s' := (s.reverse.dropWhile (fun c => c = '/')).reverse
  (s'.reverse.takeWhile (fun c => c ≠ '/')).reverse

/-- `Path(name).stem`: the name without its suffix, where the suffix is
`name[i:]` for `i = name.rfind('.')` only when `0 < i < len(name) - 1`. -/
def pathStem (s : List Char) : List Char :=
  let name := pathNameOf s
  match rfind name ['.'] 0 name.length with
  | some i => if 0 < i ∧ i < name.length - 1 then name.take i else name
  | none => name

/-- `_safe_doc_id(name)`:
`re.sub(r"[^\w\-]", "_", Path(name).stem)[:80] or "doc"`, then
`.encode("ascii", "replace").decode("ascii")` (each non-ASCII character
becomes `'?'`). -/
def safeDocId (name : List Char) : List Char :=
  let stem := pathStem name
  let safe := (stem.map (fun c => if pyIsWordChar c || c = '-' then c else '_')).take 80
  let safe' := if safe = [] then ['d', 'o', 'c'] else safe
  safe'.map (fun c => if c.toNat < 128 then c else '?')

/-- Python `x or y` for optional strings, as in `doc_id or ...` and
`original_name or path.name` (`None` and `""` are both falsy). -/
def pyOrStr (x : Option String) (y : String) : String :=
  match x with
  | some s => if s = "" then y else s
  | none => y

/-- The result dict of `ingest_document`. -/
structure IngestResult where
  success : Bool
  error : Option String := none
  chunks : Option Nat := none
  source : Option String := none
deriving DecidableEq, Repr

/-- The argument tuple of one `VectorStore.add` call. -/
structure AddCall where
  ids : List String
  embeddings : List Vec
  documents : List String
  metadatas : List MetaDict
deriving Repr

/-- The collaborators `ingest_document` touches: the filesystem check,
the `process_document` extraction/chunking stream for this path, the
embedding service, and the vector store's `add`. -/
structure IngestDeps where
  pathExists : Bool
  pathName : String
  processDoc : List (String × MetaDict)
  embed : List String → Except PyExc (List Vec)
  storeAdd : AddCall → Except PyExc Unit

/-- `ingest_document(path, doc_id, original_name)`: missing file and
empty extraction fail early; an embedding failure is caught and
reported as `"Embedding failed: ..."`; only then is `store.add` called,
whose failure is reported with `str(e)`.  The second component is the
sequence of `store.add` calls issued. -/
def ingestDocument (d : IngestDeps) (docId : Option String) (originalName : Option String) :
    IngestResult × List AddCall :=
  if !d.pathExists then
    ({ success := false, error := some ("File not found: " ++ d.pathName) }, [])
  else
    let baseId := pyOrStr docId (String.mk (safeDocId (pyOrStr originalName d.pathName).toList))
    let chunks := d.processDoc.map Prod.fst
    let metas := d.processDoc.map Prod.snd
    if chunks = [] then
      ({ success := false, error := some "No text extracted from document" }, [])
    else
      match d.embed chunks with
      | .error e =>
        ({ success := false,
           error := some ("Embedding failed: " ++ excStr e ++ ". Check OPENAI_API_KEY and quota.") }, [])
      | .ok embeddings =>
        let ids := (List.range chunks.length).map (fun i => baseId ++ "_" ++ Nat.repr i)
        let call : AddCall :=
          { ids := ids, embeddings := embeddings, documents := chunks, metadatas := metas }
        match d.storeAdd call with
        | .error e => ({ success := false, error := some (excStr e) }, [call])
        | .ok _ =>
          ({ success := true, chunks := some chunks.length,
             source := some (pyOrStr originalName d.pathName) }, [call])

/-! ## Spec-side definitions for refinement comparison -/

/-- The break cascade as the specification words it: each pattern is
looked for inside the window `[start, start + chunk_size)` itself, i.e.
the occurrence must be contained in `[start, e)` rather than in the
source's `[start, e + 1)`. -/
def breakCandidateClaim (t : List Char) (start e : Nat) : Option Nat :=
  match rfind t paraBreak start e with
  | some p => some p
  | none =>
    match rfind t lineBreak start e with
    | some p => some p
    | none => rfind t sentenceBreak start e

/-- The chunk end as the specification's sentence describes it (windows
as in `breakCandidateClaim`; the `break_at + 1` and `break_at > start`
conventions kept as in the source, since the sentence under test only
concerns the search window). -/
def selectEndClaim (t : List Char) (start chunkSize : Nat) : Nat :=
  let e := start + chunkSize
  match breakCandidateClaim t start e with
  | some p => if start < p then p + 1 else e
  | none => e

/-- `pat` occurs at `i` within the slice `[a, b)` of `t`. -/
abbrev OccIn (t pat : List Char) (a b i : Nat) : Prop :=
  a ≤ i ∧ i + pat.length ≤ b ∧ occursAt t pat i = true

/-! ## Concrete fixtures used by witnesses and counterexamples -/

/-- Input on which `_chunk_text(·, 10, 5)` never terminates:
the paragraph break sits 6 characters in, so after the first chunk the
window keeps rediscovering it and `start` stops advancing. -/
def c1Text : List Char := "aaaaaa\n\nxxxxxxxxxxxxxxxxxxxx".toList

/-- The normalized form of `c1Text` (it contains no carriage returns). -/
def c1Norm : List Char := normalizeNewlines c1Text

/-- A text whose only break character is a newline exactly at the window
boundary `start + chunk_size`. -/
def c6Text : List Char := "abcde\nfgh".toList

/-- A text with a paragraph break strictly inside the first window. -/
def c6ParaText : List Char := "ab\n\ncdefg".toList

/-- A language model that always requests one tool call. -/
def llmToolLoop : List Message → ModelReply :=
  fun _ => { content := "", toolCalls := [⟨"call_1", "ghost", "not json"⟩] }

/-- A language model that always answers `"four"` with no tool calls. -/
def llmPlainFour : List Message → ModelReply :=
  fun _ => { content := "four", toolCalls := [] }

/-- A handler returning a plain string. -/
def echoHandler : PyJson → HandlerOutcome := fun _ => .ok (.vstr "plain text")

/-- A handler returning `None`. -/
def noopHandler : PyJson → HandlerOutcome := fun _ => .ok .vnone

/-- A handler returning a JSON-serializable non-string value. -/
def dataHandler : PyJson → HandlerOutcome := fun _ => .ok (.vother (.jarr [.jnum 1, .jnum 2]))

/-- A handler that raises. -/
def raiseHandler : PyJson → HandlerOutcome := fun _ => .raised "kaboom"

/-- A registry with one handler of each behavior registered. -/
def regFixture : Registry :=
  registryRegister
    (registryRegister
      (registryRegister
        (registryRegister registryEmpty "echo" echoHandler)
        "noop" noopHandler)
      "data" dataHandler)
    "boom" raiseHandler

/-- An upstream embeddings endpoint that fails with a connection error. -/
def createFail : List String → Except PyExc (List (EmbedItem Vec)) :=
  fun _ => .error (.exc "APIConnectionError" "boom")

/-- An upstream embeddings endpoint returning one fixed vector per input. -/
def createConstVec : List String → Except PyExc (List (EmbedItem Vec)) :=
  fun ts => .ok (ts.map (fun _ => ⟨[0]⟩))

/-- Ingestion collaborators for a one-chunk document whose embedding
call fails with a rate-limit error. -/
def ingestFailDeps : IngestDeps :=
  { pathExists := true,
    pathName := "notes.txt",
    processDoc := [("hello world", [("source", .jstr "notes.txt"), ("chunk_index", .jnum 0)])],
    embed := fun _ => .error (.exc "RateLimitError" "quota exceeded"),
    storeAdd := fun _ => .ok () }

/-! ## Helper lemmas -/

/-- `x or ""` is the identity on Python strings. -/
theorem pyOrEmpty_eq (s : String) : pyOrEmpty s = s := by
  unfold pyOrEmpty
  split
  · exact Eq.symm (by assumption)
  · rfl

/-! ## C3: `execute` captures all errors as structured payloads -/

/-- C3: `FunctionRegistry.execute` never propagates an exception (it is
a total `String`-valued function): an unregistered name yields the
serialized `{"error": "Unknown tool: <name>"}` payload, and a raising
handler yields the serialized `{"error": <message>}` payload. -/
theorem execute_error_payloads (reg : Registry) (name : String) (args : PyJson) :
    (reg name = none →
      execute reg name args
        = pyJsonDumps (.jobj [("error", .jstr ("Unknown tool: " ++ name))])) ∧
    (∀ h e, reg name = some h → h args = .raised e →
      execute reg name args = pyJsonDumps (.jobj [("error", .jstr e)])) := by
  constructor
  · intro hnone
    simp [execute, hnone]
  · intro h e hsome hraise
    simp [execute, hsome, hraise]

/-- C3 witness: both error shapes at concrete inputs. -/
theorem execute_error_payloads_w :
    execute regFixture "ghost" (.jobj [])
      = pyJsonDumps (.jobj [("error", .jstr ("Unknown tool: " ++ "ghost"))]) ∧
    execute regFixture "boom" (.jobj [])
      = pyJsonDumps (.jobj [("error", .jstr "kaboom")]) :=
  ⟨(execute_error_payloads regFixture "ghost" (.jobj [])).1 rfl,
   (execute_error_payloads regFixture "boom" (.jobj [])).2 raiseHandler "kaboom" rfl rfl⟩

/-! ## C9: `execute` result conversion -/

/-- C9: for a registered handler that returns normally, `execute` passes
a string result through unchanged, serializes `None` as the literal
acknowledgement `"Done"`, and serializes any other value with
`json.dumps`. -/
theorem execute_result_conversion (reg : Registry) (name : String) (args : PyJson)
    (h : PyJson → HandlerOutcome) (hsome : reg name = some h) :
    (∀ s, h args = .ok (.vstr s) → execute reg name args = s) ∧
    (h args = .ok .vnone → execute reg name args = "Done") ∧
    (∀ j, h args = .ok (.vother j) → execute reg name args = pyJsonDumps j) := by
  refine ⟨fun s hr => ?_, fun hr => ?_, fun j hr => ?_⟩ <;> simp [execute, hsome, hr]

/-- C9 witness: all three conversions at concrete inputs. -/
theorem execute_result_conversion_w :
    execute regFixture "echo" (.jobj []) = "plain text" ∧
    execute regFixture "noop" (.jobj []) = "Done" ∧
    execute regFixture "data" (.jobj []) = pyJsonDumps (.jarr [.jnum 1, .jnum 2]) :=
  ⟨(execute_result_conversion regFixture "echo" (.jobj []) echoHandler rfl).1 "plain text" rfl,
   (execute_result_conversion regFixture "noop" (.jobj []) noopHandler rfl).2.1 rfl,
   (execute_result_conversion regFixture "data" (.jobj []) dataHandler rfl).2.2
     (.jarr [.jnum 1, .jnum 2]) rfl⟩

/-! ## C7: empty-index short circuit in `RetrievalService.search` -/

/-- C7: when the vector index reports zero count,
`RetrievalService.search` returns the empty sequence and issues zero
embedding calls, for every query text and `top_k`. -/
theorem retrievalSearch_empty_index (embed : List String → Except PyExc (List Vec))
    (query : List Vec → Nat → QueryReturn) (q : String) (topK : Nat) :
    retrievalSearch 0 embed query q topK = (.ok [], 0) := by
  simp [retrievalSearch]

/-! ## C5: embedding failure during ingestion is all-or-nothing -/

/-- C5: if the embedding call fails during `ingest_document`, the result
is a failure whose reason names the embedding step, and no
`VectorStore.add` call is issued — the index is left untouched. -/
theorem ingest_embed_failure_all_or_nothing (d : IngestDeps)
    (docId originalName : Option String) (e : PyExc)
    (hex : d.pathExists = true)
    (hch : d.processDoc.map Prod.fst ≠ [])
    (hemb : d.embed (d.processDoc.map Prod.fst) = .error e) :
    ingestDocument d docId originalName
      = ({ success := false,
           error := some ("Embedding failed: " ++ excStr e ++ ". Check OPENAI_API_KEY and quota.") },
         []) := by
  simp [ingestDocument, hex, hch, hemb]

/-- C5 witness: the concrete one-chunk document with a failing embedder. -/
theorem ingest_embed_failure_all_or_nothing_w :
    ingestDocument ingestFailDeps none (some "notes.txt")
      = ({ success := false,
           error := some ("Embedding failed: " ++ excStr (.exc "RateLimitError" "quota exceeded")
                           ++ ". Check OPENAI_API_KEY and quota.") },
         []) :=
  ingest_embed_failure_all_or_nothing ingestFailDeps none (some "notes.txt")
    (.exc "RateLimitError" "quota exceeded") rfl (by simp [ingestFailDeps]) rfl

/-! ## C4: the embedding gateway's contract -/

/-- C4 counterexample: on an upstream failure `embed` propagates the
upstream exception itself — there is no `EmbeddingError` wrapper (no
such class exists in the code base): the raised value's type-name field
is the upstream one, never `EmbeddingError`. -/
theorem llmEmbed_no_wrapping_cx :
    llmEmbed createFail ["x"] = (.error (.exc "APIConnectionError" "boom"), 1) ∧
    (∀ m : String, PyExc.exc "APIConnectionError" "boom" ≠ PyExc.exc "EmbeddingError" m) := by
  constructor
  · rfl
  · intro m hcontra
    injection hcontra with h1 h2
    exact absurd h1 (by decide)

/-- C4 (amended): `embed` on empty input returns the empty list without
calling the upstream service; on upstream failure it propagates the
upstream exception unchanged with no partial results; on upstream
success it returns one vector per upstream data item, in order — so one
vector per input text whenever the upstream honors its one-item-per-input
contract. -/
theorem llmEmbed_contract {α : Type}
    (create : List String → Except PyExc (List (EmbedItem α))) (texts : List String) :
    (texts = [] → llmEmbed create texts = (.ok [], 0)) ∧
    (∀ e, texts ≠ [] → create texts = .error e → llmEmbed create texts = (.error e, 1)) ∧
    (∀ items, texts ≠ [] → create texts = .ok items →
      llmEmbed create texts = (.ok (items.map (fun it => it.embedding)), 1) ∧
      (items.length = texts.length →
        ∀ vs, (llmEmbed create texts).1 = .ok vs → vs.length = texts.length)) := by
  refine ⟨fun he => ?_, fun e hne hc => ?_, fun items hne hc => ⟨?_, fun hlen vs hvs => ?_⟩⟩
  · simp [llmEmbed, he]
  · simp [llmEmbed, hne, hc]
  · simp [llmEmbed, hne, hc]
  · simp [llmEmbed, hne, hc] at hvs
    subst hvs
    simp [hlen]

/-- C4 witness: the amended contract at concrete inputs (empty input,
and a two-text success with one vector per text). -/
theorem llmEmbed_contract_w :
    llmEmbed createConstVec ([] : List String) = (.ok [], 0) ∧
    llmEmbed createConstVec ["a", "b"]
      = (.ok (([⟨[0]⟩, ⟨[0]⟩] : List (EmbedItem Vec)).map (fun it => it.embedding)), 1) :=
  ⟨(llmEmbed_contract createConstVec []).1 rfl,
   ((llmEmbed_contract createConstVec ["a", "b"]).2.2 [⟨[0]⟩, ⟨[0]⟩] (by simp) rfl).1⟩

/-! ## C8: a tool-free first reply -/

/-- C8: with empty history, no image, and a first reply carrying no tool
calls, `process` returns the model's literal text and the final message
sequence is exactly system, user, assistant. -/
theorem process_first_reply_no_tools (llm : List Message → ModelReply) (reg : Registry)
    (m s : String)
    (h : llm [{ role := .system, content := .mstr systemPrompt },
              { role := .user, content := .mstr m }] = { content := s, toolCalls := [] }) :
    (process llm reg m [] none).result = .mstr s ∧
    (process llm reg m [] none).messages
      = [{ role := .system, content := .mstr systemPrompt },
         { role := .user, content := .mstr m },
         { role := .assistant, content := .mstr s }] ∧
    (process llm reg m [] none).messages.length = 3 ∧
    (process llm reg m [] none).messages.map Message.role = [.system, .user, .assistant] := by
  have hinit :
      process llm reg m [] none
        = processRounds llm reg 5
            [{ role := .system, content := .mstr systemPrompt },
             { role := .user, content := .mstr m }] := by
    simp [process, mkUserContent]
  rw [hinit]
  simp [processRounds, h, pyOrEmpty_eq]

/-- C8 witness: the constant no-tools model. -/
theorem process_first_reply_no_tools_w :
    (process llmPlainFour registryEmpty "Whats 2+2?" [] none).result = .mstr "four" ∧
    (process llmPlainFour registryEmpty "Whats 2+2?" [] none).messages
      = [{ role := .system, content := .mstr systemPrompt },
         { role := .user, content := .mstr "Whats 2+2?" },
         { role := .assistant, content := .mstr "four" }] ∧
    (process llmPlainFour registryEmpty "Whats 2+2?" [] none).messages.length = 3 ∧
    (process llmPlainFour registryEmpty "Whats 2+2?" [] none).messages.map Message.role
      = [.system, .user, .assistant] :=
  process_first_reply_no_tools llmPlainFour registryEmpty "Whats 2+2?" "four" rfl

/-! ## C2: round budget and exhaustion fallback -/

/-- The loop makes at most as many language-model calls as it has rounds
of budget. -/
theorem processRounds_calls_le (llm : List Message → ModelReply) (reg : Registry) :
    ∀ (n : Nat) (cur : List Message), (processRounds llm reg n cur).llmCalls ≤ n := by
  intro n
  induction n with
  | zero => intro cur; simp [processRounds]
  | succ k ih =>
    intro cur
    simp only [processRounds]
    split
    · simp
    · simpa using Nat.succ_le_succ (ih _)

/-- When every reply requests tool calls, the loop spends its whole
budget, returns the last message's content, and that last message is a
tool-result message (for a positive budget). -/
theorem processRounds_exhaust (llm : List Message → ModelReply) (reg : Registry)
    (hAll : ∀ ms, (llm ms).toolCalls ≠ []) :
    ∀ (n : Nat) (cur : List Message),
      (processRounds llm reg n cur).llmCalls = n ∧
      (processRounds llm reg n cur).result = lastContent (processRounds llm reg n cur).messages ∧
      (1 ≤ n →
        ((processRounds llm reg n cur).messages.getLast?).map Message.role = some Role.tool) := by
  intro n
  induction n with
  | zero =>
    intro cur
    refine ⟨rfl, rfl, fun habs => absurd habs (by omega)⟩
  | succ k ih =>
    intro cur
    have hne : (llm cur).toolCalls ≠ [] := hAll cur
    have hne' : (llm cur).toolCalls.isEmpty = false := by
      simpa [List.isEmpty_iff] using hne
    simp only [processRounds, hne', Bool.false_eq_true, if_false]
    refine ⟨by simpa using (ih _).1, by simpa using (ih _).2.1, fun _ => ?_⟩
    cases k with
    | zero =>
      have hmapne : (llm cur).toolCalls.map (toolResultMsg reg) ≠ [] := by
        simpa using hne
      simp only [processRounds, List.getLast?_append_of_ne_nil _ hmapne, List.getLast?_map]
      cases hlast : (llm cur).toolCalls.getLast? with
      | none => exact absurd (List.getLast?_eq_none_iff.mp hlast) hne
      | some tc => simp [toolResultMsg]
    | succ k' => simpa using (ih _).2.2 (by omega)

/-- C2: `process` invokes the language model at most `max_rounds = 5`
times; when every reply requests tool calls, the budget is spent in
full and the degraded fallback is returned: the content of the last
message in the sequence, which is then a tool-result message. -/
theorem process_round_budget (llm : List Message → ModelReply) (reg : Registry)
    (userMessage : String) (history : List Message) (image : Option String) :
    (process llm reg userMessage history image).llmCalls ≤ 5 ∧
    ((∀ ms, (llm ms).toolCalls ≠ []) →
      (process llm reg userMessage history image).llmCalls = 5 ∧
      (process llm reg userMessage history image).result
        = lastContent (process llm reg userMessage history image).messages ∧
      ((process llm reg userMessage history image).messages.getLast?).map Message.role
        = some Role.tool) := by
  constructor
  · exact processRounds_calls_le llm reg 5 _
  · intro hAll
    obtain ⟨h1, h2, h3⟩ := processRounds_exhaust llm reg hAll 5
      ({ role := .system, content := .mstr systemPrompt } ::
        history ++ [{ role := .user, content := mkUserContent userMessage image }])
    exact ⟨h1, h2, h3 (by omega)⟩

/-- C2 witness: a model that always asks for the unknown tool `ghost`
spends all 5 rounds and the fallback is the last (tool) message's
content. -/
theorem process_round_budget_w :
    (process llmToolLoop registryEmpty "hi" [] none).llmCalls = 5 ∧
    (process llmToolLoop registryEmpty "hi" [] none).result
      = lastContent (process llmToolLoop registryEmpty "hi" [] none).messages ∧
    ((process llmToolLoop registryEmpty "hi" [] none).messages.getLast?).map Message.role
      = some Role.tool :=
  (process_round_budget llmToolLoop registryEmpty "hi" [] none).2
    (fun ms => by simp [llmToolLoop])

/-! ## C10: shape of `_safe_doc_id` output -/

/-- Digit characters are ASCII. -/
theorem digitChar_ascii (n : Nat) : (Nat.digitChar n).toNat < 128 := by
  rcases Nat.lt_or_ge n 16 with h | h
  · interval_cases n <;> decide
  · have hstar : Nat.digitChar n = '*' := by
      unfold Nat.digitChar
      repeat rw [if_neg (by omega)]
    rw [hstar]
    decide

/-- `Nat.toDigitsCore` only prepends ASCII characters. -/
theorem toDigitsCore_ascii (b : Nat) :
    ∀ (fuel n : Nat) (acc : List Char), (∀ c ∈ acc, c.toNat < 128) →
      ∀ c ∈ Nat.toDigitsCore b fuel n acc, c.toNat < 128 := by
  intro fuel
  induction fuel with
  | zero =>
    intro n acc hacc c hc
    exact hacc c hc
  | succ k ih =>
    intro n acc hacc c hc
    unfold Nat.toDigitsCore at hc
    dsimp only at hc
    split at hc
    · rcases List.mem_cons.mp hc with h | h
      · subst h; exact digitChar_ascii _
      · exact hacc c h
    · refine ih _ _ ?_ c hc
      intro c' hc'
      rcases List.mem_cons.mp hc' with h | h
      · subst h; exact digitChar_ascii _
      · exact hacc c' h

/-- Every character of `Nat.repr` is ASCII. -/
theorem natRepr_ascii (n : Nat) : ∀ c ∈ (Nat.repr n).data, c.toNat < 128 := by
  intro c hc
  exact toDigitsCore_ascii 10 (n + 1) n [] (by simp) c hc

/-- C10 counterexample: `_safe_doc_id("é.txt")` is `"?"` — `é` is a
Unicode word character kept by `re.sub` and then ASCII-replaced by
`'?'`, which is not a word character, hyphen, or underscore. -/
theorem safeDocId_ascii_question_cx :
    safeDocId "é.txt".toList = ['?'] ∧
    ('?'.isAlphanum || '?' = '_' || '?' = '-') = false := by
  exact ⟨by decide, by decide⟩

/-- C10 (amended): for every input filename, `_safe_doc_id` returns a
non-empty string of at most 80 ASCII characters, each a word character,
hyphen, underscore, or `'?'` (produced by ASCII-replacement of
non-ASCII word characters); consequently every chunk id
`{document_id}_{chunk_index}` formed during ingestion is ASCII-safe. -/
theorem safeDocId_shape (name : List Char) :
    safeDocId name ≠ [] ∧
    (safeDocId name).length ≤ 80 ∧
    (∀ c ∈ safeDocId name, c.toNat < 128 ∧ (c.isAlphanum || c = '_' || c = '-' || c = '?') = true) ∧
    (∀ i : Nat, ∀ c ∈ (String.mk (safeDocId name) ++ "_" ++ Nat.repr i).data, c.toNat < 128) := by
  have hmem : ∀ c ∈ safeDocId name,
      c.toNat < 128 ∧ (c.isAlphanum || c = '_' || c = '-' || c = '?') = true := by
    intro c hc
    unfold safeDocId at hc
    simp only [List.mem_map] at hc
    obtain ⟨a, ha, hfa⟩ := hc
    by_cases hasc : a.toNat < 128
    · simp only [hasc, if_pos] at hfa
      subst hfa
      refine ⟨hasc, ?_⟩
      split at ha
      · fin_cases ha <;> decide
      · have ha' := List.take_subset 80 _ ha
        simp only [List.mem_map] at ha'
        obtain ⟨s0, _, hs0⟩ := ha'
        by_cases hw : (pyIsWordChar s0 || s0 = '-') = true
        · rw [if_pos hw] at hs0
          subst hs0
          rcases Bool.or_eq_true_iff.mp hw with hwc | hd
          · unfold pyIsWordChar at hwc
            rw [if_pos hasc] at hwc
            rcases Bool.or_eq_true_iff.mp hwc with h | h
            · simp [h]
            · simp only [decide_eq_true_eq] at h
              simp [h]
          · simp only [decide_eq_true_eq] at hd
            simp [hd]
        · rw [if_neg hw] at hs0
          subst hs0
          decide
    · simp only [hasc, if_neg, if_false] at hfa
      subst hfa
      exact ⟨by decide, by decide⟩
  refine ⟨?_, ?_, hmem, ?_⟩
  · unfold safeDocId
    simp only [ne_eq, List.map_eq_nil_iff]
    split
    · simp
    · assumption
  · unfold safeDocId
    simp only [List.length_map]
    split
    · simp
    · exact le_trans (List.length_take_le 80 _) (le_refl 80)
  · intro i c hc
    simp only [String.data_append] at hc
    rcases List.mem_append.mp hc with h | h
    · rcases List.mem_append.mp h with h' | h'
      · exact (hmem c h').1
      · simp only [List.mem_singleton] at h'
        subst h'
        decide
    · exact natRepr_ascii i c h

/-- C10 witness: the amended shape at a concrete filename, character and
chunk index. -/
theorem safeDocId_shape_w :
    ('a'.toNat < 128 ∧ ('a'.isAlphanum || 'a' = '_' || 'a' = '-' || 'a' = '?') = true) ∧
    '4'.toNat < 128 :=
  ⟨(safeDocId_shape "ab.txt".toList).2.2.1 'a' (by decide),
   (safeDocId_shape "ab.txt".toList).2.2.2 42 '4' (by decide)⟩

/-! ## C6: break-point selection of the chunker -/

/-- The last element of a filtered range is the greatest index below the
bound satisfying the predicate. -/
theorem getLast?_filter_range_eq_some {P : Nat → Bool} :
    ∀ (b p : Nat), p < b → P p = true → (∀ q, q < b → P q = true → q ≤ p) →
      ((List.range b).filter P).getLast? = some p := by
  intro b
  induction b with
  | zero => intro p hp; omega
  | succ n ih =>
    intro p hp hPp hmax
    rw [List.range_succ, List.filter_append]
    by_cases hPn : P n = true
    · have hfn : List.filter P [n] = [n] := by simp [hPn]
      rw [hfn, List.getLast?_concat]
      have h1 : n ≤ p := hmax n (by omega) hPn
      exact congrArg some (by omega)
    · have hPn' : P n = false := by simpa using hPn
      have hfn : List.filter P [n] = [] := by simp [hPn']
      rw [hfn, List.append_nil]
      have hpn : p ≠ n := fun h => hPn (h ▸ hPp)
      exact ih p (by omega) hPp (fun q hq hPq => hmax q (by omega) hPq)

/-- A filtered range with no qualifying index has no last element. -/
theorem getLast?_filter_range_eq_none {P : Nat → Bool} (b : Nat)
    (h : ∀ q, q < b → P q = false) :
    ((List.range b).filter P).getLast? = none := by
  have : (List.range b).filter P = [] := by
    rw [List.filter_eq_nil_iff]
    intro a ha
    rw [List.mem_range] at ha
    simp [h a ha]
  rw [this]
  rfl

/-- `rfind` returns the greatest contained occurrence. -/
theorem rfind_eq_some (t pat : List Char) (a b p : Nat) (hpat : 0 < pat.length)
    (h1 : a ≤ p) (h2 : p + pat.length ≤ b) (h3 : occursAt t pat p = true)
    (hmax : ∀ q, q < b → a ≤ q → q + pat.length ≤ b → occursAt t pat q = true → q ≤ p) :
    rfind t pat a b = some p := by
  apply getLast?_filter_range_eq_some
  · omega
  · simp [h1, h2, h3]
  · intro q hq hPq
    simp only [Bool.and_eq_true, decide_eq_true_eq] at hPq
    exact hmax q hq hPq.1.1 hPq.1.2 hPq.2

/-- `rfind` returns `none` when no occurrence is contained in the
range. -/
theorem rfind_eq_none (t pat : List Char) (a b : Nat)
    (h : ∀ q, q < b → ¬(a ≤ q ∧ q + pat.length ≤ b ∧ occursAt t pat q = true)) :
    rfind t pat a b = none := by
  apply getLast?_filter_range_eq_none
  intro q hq
  rw [Bool.eq_false_iff]
  intro hPq
  simp only [Bool.and_eq_true, decide_eq_true_eq] at hPq
  exact h q hq ⟨hPq.1.1, hPq.1.2, hPq.2⟩

/-- C6 counterexample: on `"abcde\nfgh"` with `chunk_size = 5` the
source ends the first chunk at 6 — using the newline at index 5, i.e.
at `start + chunk_size`, one position past the claimed search window
`[start, start + chunk_size)`, under which the chunk would end at the
raw boundary 5. -/
theorem selectEnd_window_cx :
    selectEnd c6Text 0 5 = 6 ∧ selectEndClaim c6Text 0 5 = 5 := by
  exact ⟨by decide, by decide⟩

/-- C6 (amended): for each window, `_chunk_text` ends the chunk just
after the last paragraph break whose occurrence is contained in
`[start, start + chunk_size + 1)` — one position past the raw window
boundary; failing any such paragraph break, the last single newline
contained there; failing that, the last period-space contained there;
and at the raw window boundary `start + chunk_size` when no pattern
occurs there or the found break does not start strictly after
`start`. -/
theorem selectEnd_break_preference (t : List Char) (start cs : Nat) :
    (∀ p, OccIn t paraBreak start (start + cs + 1) p →
      (∀ q, q < start + cs + 1 → OccIn t paraBreak start (start + cs + 1) q → q ≤ p) →
      selectEnd t start cs = if start < p then p + 1 else start + cs) ∧
    ((∀ q, q < start + cs + 1 → ¬OccIn t paraBreak start (start + cs + 1) q) →
      ∀ p, OccIn t lineBreak start (start + cs + 1) p →
      (∀ q, q < start + cs + 1 → OccIn t lineBreak start (start + cs + 1) q → q ≤ p) →
      selectEnd t start cs = if start < p then p + 1 else start + cs) ∧
    ((∀ q, q < start + cs + 1 → ¬OccIn t paraBreak start (start + cs + 1) q) →
      (∀ q, q < start + cs + 1 → ¬OccIn t lineBreak start (start + cs + 1) q) →
      ∀ p, OccIn t sentenceBreak start (start + cs + 1) p →
      (∀ q, q < start + cs + 1 → OccIn t sentenceBreak start (start + cs + 1) q → q ≤ p) →
      selectEnd t start cs = if start < p then p + 1 else start + cs) ∧
    ((∀ q, q < start + cs + 1 → ¬OccIn t paraBreak start (start + cs + 1) q) →
      (∀ q, q < start + cs + 1 → ¬OccIn t lineBreak start (start + cs + 1) q) →
      (∀ q, q < start + cs + 1 → ¬OccIn t sentenceBreak start (start + cs + 1) q) →
      selectEnd t start cs = start + cs) := by
  have hbound : ∀ (pat : List Char), 0 < pat.length →
      ∀ q, q + pat.length ≤ start + cs + 1 → q < start + cs + 1 := by
    intro pat hpat q hq
    omega
  have hnone : ∀ (pat : List Char),
      (∀ q, q < start + cs + 1 → ¬OccIn t pat start (start + cs + 1) q) →
      rfind t pat start (start + cs + 1) = none := by
    intro pat hno
    apply rfind_eq_none
    intro q hq hOcc
    exact hno q hq hOcc
  have hsome : ∀ (pat : List Char), 0 < pat.length →
      ∀ p, OccIn t pat start (start + cs + 1) p →
      (∀ q, q < start + cs + 1 → OccIn t pat start (start + cs + 1) q → q ≤ p) →
      rfind t pat start (start + cs + 1) = some p := by
    intro pat hpat p hp hmax
    exact rfind_eq_some t pat start (start + cs + 1) p hpat hp.1 hp.2.1 hp.2.2
      (fun q hq hq1 hq2 hq3 => hmax q hq ⟨hq1, hq2, hq3⟩)
  refine ⟨fun p hp hmax => ?_, fun hno1 p hp hmax => ?_, fun hno1 hno2 p hp hmax => ?_,
    fun hno1 hno2 hno3 => ?_⟩
  · have h := hsome paraBreak (by decide) p hp hmax
    simp [selectEnd, breakCandidate, h]
  · have h1 := hnone paraBreak hno1
    have h := hsome lineBreak (by decide) p hp hmax
    simp [selectEnd, breakCandidate, h1, h]
  · have h1 := hnone paraBreak hno1
    have h2 := hnone lineBreak hno2
    have h := hsome sentenceBreak (by decide) p hp hmax
    simp [selectEnd, breakCandidate, h1, h2, h]
  · have h1 := hnone paraBreak hno1
    have h2 := hnone lineBreak hno2
    have h3 := hnone sentenceBreak hno3
    simp [selectEnd, breakCandidate, h1, h2, h3]

/-- C6 witness: the paragraph break at index 2 of `"ab\n\ncdefg"` is the
chosen chunk end for the first window. -/
theorem selectEnd_break_preference_w :
    selectEnd c6ParaText 0 5 = if 0 < 2 then 2 + 1 else 0 + 5 :=
  (selectEnd_break_preference c6ParaText 0 5).1 2 (by decide) (by decide)

/-! ## C1: the chunking loop does not always make progress -/

/-- On `c1Norm` with `chunk_size = 10, overlap = 5`, the loop body at
`start = 2` selects the break at index 6, ends the chunk at 7, and sets
`start = 7 - 5 = 2` again: the state repeats. -/
theorem c1_loop_step (n : Nat) :
    chunkLoop c1Norm 10 5 (n + 1) 2
      = Option.map (fun rest => pyStrip ((c1Norm.drop 2).take 5) :: rest)
          (chunkLoop c1Norm 10 5 n 2) := rfl

/-- The loop at `start = 2` therefore exhausts any amount of fuel. -/
theorem c1_loop_none : ∀ n : Nat, chunkLoop c1Norm 10 5 n 2 = none := by
  intro n
  induction n with
  | zero => rfl
  | succ k ih => rw [c1_loop_step, ih]; rfl

/-- The first iteration (from `start = 0`) steps into the repeating
state `start = 2`. -/
theorem c1_start_step (n : Nat) :
    chunkLoop c1Norm 10 5 (n + 1) 0
      = Option.map (fun rest => pyStrip (c1Norm.take 7) :: rest)
          (chunkLoop c1Norm 10 5 n 2) := rfl

/-- `_chunk_text` on `c1Text` reduces to the loop from `start = 0`. -/
theorem c1_unfold (fuel : Nat) :
    chunkText c1Text 10 5 fuel
      = (chunkLoop c1Norm 10 5 fuel 0).map (fun l => l.filter (fun c => !c.isEmpty)) := rfl

/-- C1: `_chunk_text` does not terminate for every `overlap <
chunk_size`: on `c1Text` with `chunk_size = 10, overlap = 5` the loop
never finishes (the chunk start stops advancing at 2 because the break
position is re-discovered inside the overlap), so no amount of fuel
completes it. -/
theorem chunkText_c1_diverges : ∀ fuel : Nat, chunkText c1Text 10 5 fuel = none := by
  intro fuel
  cases fuel with
  | zero => rfl
  | succ n =>
    rw [c1_unfold, c1_start_step, c1_loop_none]
    rfl

end AiAgent
